import Mathlib

/-!
# Verification of the `adb` airport-database tool

A shallow embedding of the core of the `adb` repository (Rust), together
with proofs settling the specification claims about it.

Conventions of the embedding:
* Rust strings are modelled as `List Char` (abbreviated `RStr`); for ASCII
  data, bytewise and character-wise operations agree.
* `usize` arithmetic is modelled as `Nat` with explicit reduction modulo
  `2 ^ 64` where Rust wrapping/overflow behaviour matters.
* `f64` values are modelled by `F64`: a rational for finite values plus the
  special forms (`inf`, `-inf`, `NaN`) accepted by Rust's float grammar.
  Claims settled here depend on parse success/failure and on exact algebraic
  identities, not on rounding, so the rational idealization is faithful.
* Fallible Rust code returns `Except`; a slice-indexing or arithmetic panic
  is the explicit `Panicked` error.
* External crates (tantivy, geoutils) are modelled as explicit oracle
  structures passed to the embedded functions.
-/

set_option autoImplicit false

namespace Adb

universe u v

/-! # Part 1 — Definitions -/

/-- The number of values of the Rust `usize` type on a 64-bit target. -/
def USIZE : Nat := 2 ^ 64

/-- A Rust panic observed while running embedded code (debug-mode arithmetic
overflow or out-of-bounds slice indexing). -/
inductive Panicked where
  | indexOutOfBounds
  deriving DecidableEq, Repr

/-! ## `src/pairs.rs`

`PairsIter::new` sets `cursor = 0..(source.len() - 1)`; the subtraction is a
`usize` subtraction.  In release builds `0 - 1` wraps to `usize::MAX`
(modelled by the `% USIZE` below) and the first call to `next` then indexes
`source[0]` on an empty slice, which panics; in debug builds the subtraction
itself panics at construction.  Either way an empty source panics, which the
embedding reports as `Panicked.indexOutOfBounds`. -/

/-- One iteration of `PairsIter::next` per cursor position: while
`start < stop`, yield `(source[start], source[start+1])`; an out-of-range
index is the panic of the Rust slice-indexing operation. -/
def pairsAux {α : Type u} (source : List α) (start stop : Nat) :
    Except Panicked (List (α × α)) :=
  if _h : start < stop then
    match source.get? start, source.get? (start + 1) with
    | some a, some b => (pairsAux source (start + 1) stop).map (fun r => (a, b) :: r)
    | _, _ => .error .indexOutOfBounds
  else
    .ok []
termination_by stop - start

/-- Running the `PairsIter` over a whole slice: cursor high end is
`source.len() - 1` as wrapping `usize` arithmetic. -/
def pairsRun {α : Type u} (source : List α) : Except Panicked (List (α × α)) :=
  pairsAux source 0 ((source.length + (USIZE - 1)) % USIZE)

/-- The adjacent pairs `(item[i], item[i+1])`, written as a standard list
function for specification purposes. -/
def adjacentPairs {α : Type u} (l : List α) : List (α × α) :=
  l.zip l.tail

/-! ## Strings and floating-point parsing (`src/model.rs`)

Rust strings are `List Char`; `split_ascii_whitespace` and
`str::parse::<f64>` are embedded below.  For `f64` the value domain is
`F64`: exact rationals for the finite decimal forms, plus the `inf`,
`-inf` and `NaN` forms Rust's grammar accepts.  Definitional equality on
`F64` is the structural one of the model (it is never used to compare a
`NaN` with itself in any claim). -/

/-- A Rust string, modelled as its list of characters. -/
abbrev RStr := List Char

/-- `u8::is_ascii_whitespace`: space, tab, line feed, form feed, carriage
return. -/
def isAsciiWhitespace (c : Char) : Bool :=
  c = ' ' || c = '\t' || c = '\n' || c = '\x0c' || c = '\r'

/-- `str::split_ascii_whitespace`, which never yields empty tokens.
The accumulator holds the current token reversed. -/
def splitWsAux : RStr → RStr → List RStr
  | [], cur => if cur.isEmpty then [] else [cur.reverse]
  | c :: cs, cur =>
    if isAsciiWhitespace c then
      if cur.isEmpty then splitWsAux cs [] else cur.reverse :: splitWsAux cs []
    else
      splitWsAux cs (c :: cur)

/-- The whitespace-separated tokens of a string. -/
def splitAsciiWhitespace (s : RStr) : List RStr :=
  splitWsAux s []

/-- The value of a parsed `f64`: the finite decimal `mantissa · 10 ^ exp10`
(kept unnormalized, exactly as read from the digits), an infinity, or NaN. -/
inductive F64 where
  | finite (mantissa : Int) (exp10 : Int)
  | posInf
  | negInf
  | nan
  deriving DecidableEq, Repr

/-- ASCII lower-casing of one character (for the case-insensitive special
forms `inf` / `infinity` / `nan`). -/
def lowerChar (c : Char) : Char :=
  if 'A' ≤ c ∧ c ≤ 'Z' then Char.ofNat (c.toNat + 32) else c

/-- Numeric value of a run of decimal digits. -/
def digitsVal (ds : List Char) : Nat :=
  ds.foldl (fun acc d => 10 * acc + (d.toNat - '0'.toNat)) 0

/-- Splits the longest prefix of decimal digits off a string. -/
def spanDigits (s : RStr) : RStr × RStr :=
  (s.takeWhile Char.isDigit, s.dropWhile Char.isDigit)

/-- Parses the optional exponent suffix (`e`/`E`, optional sign, digits) and
adds it to the decimal exponent; anything trailing is a parse error. -/
def parseExpPart (mantissa exp10 : Int) (s : RStr) : Option (Int × Int) :=
  match s with
  | [] => some (mantissa, exp10)
  | e :: rest =>
    if e = 'e' ∨ e = 'E' then
      let (esign, rest') :=
        match rest with
        | '+' :: r => (1, r)
        | '-' :: r => (-1, r)
        | r => ((1 : Int), r)
      let (ds, rest'') := spanDigits rest'
      if ds.isEmpty ∨ ¬rest''.isEmpty then none
      else some (mantissa, exp10 + esign * (digitsVal ds : Int))
    else none

/-- Parses the number part after the optional sign: decimal digits with at
most one point (at least one digit overall), then an optional exponent.
The result is the pair (mantissa, decimal exponent). -/
def parseNumberPart (s : RStr) : Option (Int × Int) :=
  let (intDs, r1) := spanDigits s
  match r1 with
  | '.' :: r2 =>
    let (fracDs, r3) := spanDigits r2
    if intDs.isEmpty ∧ fracDs.isEmpty then none
    else
      parseExpPart
        (digitsVal intDs * 10 ^ fracDs.length + digitsVal fracDs)
        (-(fracDs.length : Int)) r3
  | _ =>
    if intDs.isEmpty then none else parseExpPart (digitsVal intDs : Int) 0 r1

/-- `str::parse::<f64>` (`core::num::dec2flt`): optional sign; then the
case-insensitive special forms `inf` / `infinity` / `nan`; otherwise decimal
digits with an optional point and exponent.  The embedding keeps the exact
rational value of finite literals. -/
def parseF64 (s : RStr) : Option F64 :=
  match s with
  | [] => none
  | _ =>
    let (neg, rest) :=
      match s with
      | '+' :: r => (false, r)
      | '-' :: r => (true, r)
      | r => (false, r)
    let low := rest.map lowerChar
    if low = "inf".data ∨ low = "infinity".data then
      some (if neg then .negInf else .posInf)
    else if low = "nan".data then some .nan
    else
      (parseNumberPart rest).map fun me =>
        .finite (if neg then -me.1 else me.1) me.2

/-- Latitude and longitude, as parsed/stored `f64` values (`src/model.rs`). -/
structure Coords where
  latitude : F64
  longitude : F64
  deriving DecidableEq, Repr

/-- `ParseCoordsError` from `src/model.rs`; the `Float` variant's
`ParseFloatError` payload is not modelled. -/
inductive ParseCoordsError where
  | MissingComponent
  | TooManyComponents
  | floatError
  deriving DecidableEq, Repr

/-- `impl FromStr for Coords` (`src/model.rs`): first whitespace token is
the latitude, second is the longitude, any third token is rejected. -/
def Coords.fromStr (s : RStr) : Except ParseCoordsError Coords :=
  match splitAsciiWhitespace s with
  | [] => .error .MissingComponent
  | t1 :: rest =>
    match parseF64 t1 with
    | none => .error .floatError
    | some lat =>
      match rest with
      | [] => .error .MissingComponent
      | t2 :: rest2 =>
        match parseF64 t2 with
        | none => .error .floatError
        | some lon =>
          if rest2.isEmpty then .ok ⟨lat, lon⟩
          else .error .TooManyComponents

deriving instance DecidableEq for Except

/-! ## Record model (`src/model.rs`) -/

/-- `Runway` (`src/model.rs`). -/
structure Runway where
  airport : RStr
  name : RStr
  length : Option Int
  is_closed : Bool
  is_lighted : Bool
  deriving DecidableEq, Repr

/-- `RunwayTemplate` (`src/model.rs`): one raw row of the runways table.
The `lighted`/`closed` columns are `i8` flags. -/
structure RunwayTemplate where
  airport_ident : RStr
  length_ft : Option Int
  lighted : Int
  closed : Int
  le_ident : RStr
  he_ident : RStr
  deriving DecidableEq, Repr

/-- `impl From<RunwayTemplate> for Runway`: the composite name is
`"{le_ident}/{he_ident}"` and the flags compare the `i8` columns to `1`. -/
def Runway.fromTemplate (t : RunwayTemplate) : Runway where
  airport := t.airport_ident
  name := t.le_ident ++ '/' :: t.he_ident
  length := t.length_ft
  is_closed := t.closed = 1
  is_lighted := t.lighted = 1

/-- `Airport` (`src/model.rs`). -/
structure Airport where
  ident : RStr
  kind : RStr
  name : RStr
  elevation_ft : Option Int
  continent : RStr
  iso_country : RStr
  iso_region : RStr
  municipality : RStr
  gps_code : RStr
  iata_code : RStr
  local_code : RStr
  coordinates : Coords
  runways : List Runway
  deriving DecidableEq, Repr

/-- `AirportTemplate` (`src/model.rs`): one raw row of the airports table. -/
structure AirportTemplate where
  ident : RStr
  kind : RStr
  name : RStr
  elevation_ft : Option Int
  continent : RStr
  iso_country : RStr
  iso_region : RStr
  municipality : RStr
  gps_code : RStr
  iata_code : RStr
  local_code : RStr
  latitude_deg : F64
  longitude_deg : F64
  deriving DecidableEq, Repr

/-- `Airport::from_template` (`src/model.rs`): moves every field across and
starts with the default (empty) runway list; it always returns `Some`. -/
def Airport.from_template (t : AirportTemplate) : Option Airport :=
  some
    { ident := t.ident
      kind := t.kind
      name := t.name
      elevation_ft := t.elevation_ft
      continent := t.continent
      iso_country := t.iso_country
      iso_region := t.iso_region
      municipality := t.municipality
      gps_code := t.gps_code
      iata_code := t.iata_code
      local_code := t.local_code
      coordinates := { latitude := t.latitude_deg, longitude := t.longitude_deg }
      runways := [] }

/-! ## Runway association during index build (`src/search.rs`)

`load_runways` groups runway rows by owning-airport identifier into a hash
map (`entry(..).or_default().push(..)`), modelled as a finite map from
identifiers to the accumulated group; `write_index`'s loop then `remove`s
(consumes) each airport's group when the airport is constructed.  The
serialization of each airport into a tantivy document is the external
writer's concern and is not needed by any claim. -/

/-- The runway grouping map: `None` models an absent key, `Some group` a
present (necessarily non-empty) group. -/
def RunwayMap := RStr → Option (List Runway)

/-- `map.entry(r.airport).or_default().push(r)` from `load_runways`. -/
def insertRunway (m : RunwayMap) (r : Runway) : RunwayMap :=
  fun k => if k = r.airport then some ((m r.airport).getD [] ++ [r]) else m k

/-- `load_runways` (`src/search.rs`): convert each row and group by owning
airport identifier, preserving row order inside each group. -/
def loadRunways (rows : List RunwayTemplate) : RunwayMap :=
  rows.foldl (fun m t => insertRunway m (Runway.fromTemplate t)) (fun _ => none)

/-- `HashMap::remove` of one key. -/
def removeKey (m : RunwayMap) (k : RStr) : RunwayMap :=
  fun k' => if k' = k then none else m k'

/-- The airport loop of `write_index` (`src/search.rs`): for each airport in
row order, `remove` its group from the map (consuming it) and attach it as
the airport's runway list; an airport whose identifier is no longer (or was
never) in the map keeps its default empty list. -/
def attachRunways (m : RunwayMap) : List Airport → List Airport
  | [] => []
  | a :: rest =>
    match m a.ident with
    | some rs => { a with runways := rs } :: attachRunways (removeKey m a.ident) rest
    | none => a :: attachRunways m rest

/-- A placeholder airport for total indexing in theorem statements. -/
def dfltAirport : Airport :=
  { ident := []
    kind := []
    name := []
    elevation_ft := none
    continent := []
    iso_country := []
    iso_region := []
    municipality := []
    gps_code := []
    iata_code := []
    local_code := []
    coordinates := { latitude := .nan, longitude := .nan }
    runways := [] }

/-! ## Waypoints and the route resolver (`src/waypoint.rs`, `src/error.rs`)

`src/error.rs` declares `Error::UnknownIdentifier` and `src/waypoint.rs`
declares the `Waypoint` sum type, but the loop that resolves route tokens
into waypoints has no caller under `src/` (the legacy `main.rs` exits the
process on an identifier miss without ever attempting a coordinate parse).
The resolver itself is therefore modelled from the spec below, on top of the
source-embedded `Coords.fromStr` and `Error` type. -/

/-- `Error` (`src/error.rs`); the `IO` and `Tantivy` payloads are opaque
message strings in the model. -/
inductive Error where
  | UnknownIdentifier (ident : RStr)
  | ioError (msg : RStr)
  | tantivyError (msg : RStr)
  deriving DecidableEq, Repr

/-- `Waypoint` (`src/waypoint.rs`): an airport-backed point or a raw
coordinate pair. -/
inductive Waypoint where
  | airport (a : Airport)
  | coords (c : Coords)
  deriving DecidableEq, Repr

/-- `Waypoint::coordinates` (`src/waypoint.rs`). -/
def Waypoint.coordinates : Waypoint → Coords
  | .airport a => a.coordinates
  | .coords c => c

/-- Modelled from the spec: resolution of a single route token (§4.4),
whose loop is absent from `src/` — "(1) attempt `by_identifier` on the
token; on a hit, wrap the returned Airport as an Airport-backed Waypoint.
(2) On a miss, attempt to parse the token as a coordinate pair … (3) If both
fail, the whole route computation fails with an 'unresolved waypoint'
condition naming the offending token."  The identifier lookup is the
database oracle `db`. -/
def resolveToken (db : RStr → Option Airport) (t : RStr) : Except Error Waypoint :=
  match db t with
  | some a => .ok (.airport a)
  | none =>
    match Coords.fromStr t with
    | .ok c => .ok (.coords c)
    | .error _ => .error (.UnknownIdentifier t)

/-- Modelled from the spec: per-token resolution of the whole route, in
order, fail-fast. -/
def resolveRoute (db : RStr → Option Airport) : List RStr → Except Error (List Waypoint)
  | [] => .ok []
  | t :: ts =>
    match resolveToken db t with
    | .ok w => (resolveRoute db ts).map fun ws => w :: ws
    | .error e => .error e

/-- A token resolves when the identifier lookup hits or the coordinate parse
succeeds. -/
def tokenResolves (db : RStr → Option Airport) (t : RStr) : Prop :=
  (db t).isSome ∨ (Coords.fromStr t).isOk

instance (db : RStr → Option Airport) (t : RStr) : Decidable (tokenResolves db t) := by
  unfold tokenResolves
  infer_instance

/-- The waypoint a resolvable token becomes: airport-backed on an identifier
hit, otherwise the raw coordinates (the fallback value is never reached for
resolvable tokens). -/
def tokenWaypoint (db : RStr → Option Airport) (t : RStr) : Waypoint :=
  match db t with
  | some a => .airport a
  | none =>
    match Coords.fromStr t with
    | .ok c => .coords c
    | .error _ => .coords { latitude := .nan, longitude := .nan }

/-! ## Query layer of the database (`src/database.rs`)

The tantivy engine is an external crate; its parser, searcher and document
store are modelled by the oracle structure `Tantivy`, parameterized over
the engine's opaque types (relevance scores `S`, parsed queries `Q`,
document addresses `A`, retrieved documents `D`).  What `src/database.rs`
adds on top — which field each operation queries, the result limits, and
the materialization pipeline that silently drops undeserializable
documents — is embedded faithfully below. -/

/-- The four schema fields registered in `search::initialize_with_source`. -/
inductive SchemaField where
  | identifier
  | description
  | facet
  | object
  deriving DecidableEq, Repr

/-- Oracle for the external tantivy engine, from the viewpoint of
`src/database.rs`:
* `parseQuery f s` — `QueryParser::for_index(&index, vec![f]).parse_query(s)`;
* `searchTop q n` — `searcher.search(&q, &TopDocs::with_limit(n))`;
* `getDoc a` — `searcher.doc(address).ok()`;
* `payload d` — `document.get_first(object)?.as_bytes()?`;
* `deser bs` — `serde_json::from_slice(bs).ok()`. -/
structure Tantivy (S Q A D : Type) where
  parseQuery : SchemaField → RStr → Except RStr Q
  searchTop : Q → Nat → Except RStr (List (S × A))
  getDoc : A → Option D
  payload : D → Option (List Nat)
  deser : List Nat → Option Airport

section Database

variable {S Q A D : Type}

/-- The whole per-candidate retrieval pipeline: fetch the document, read the
`object` payload, deserialize. -/
def deserDoc (t : Tantivy S Q A D) (sa : S × A) : Option Airport :=
  (t.getDoc sa.2).bind fun d => (t.payload d).bind t.deser

/-- The two `filter_map`s of `Database::materialize_query`
(`src/database.rs`): fetchable documents, then deserializable payloads;
failures at either stage are silently dropped. -/
def materializeDocs (t : Tantivy S Q A D) (cands : List (S × A)) : List Airport :=
  (cands.filterMap fun sa => t.getDoc sa.2).filterMap
    fun d => (t.payload d).bind t.deser

/-- `Database::materialize_query` (`src/database.rs`). -/
def materialize_query (t : Tantivy S Q A D) (q : Q) (limit : Nat) :
    Except RStr (List Airport) :=
  (t.searchTop q limit).map (materializeDocs t)

/-- `Database::by_identifier` (`src/database.rs`): parse the raw token
against the `identifier` field only, search with limit 1, take the first
materialized result. -/
def by_identifier (t : Tantivy S Q A D) (id : RStr) :
    Except RStr (Option Airport) :=
  match t.parseQuery .identifier id with
  | .error e => .error e
  | .ok q => (materialize_query t q 1).map List.head?

/-- `Database::search` (`src/database.rs`): parse the query text against the
`description` field only, search with limit 25. -/
def dbSearch (t : Tantivy S Q A D) (text : RStr) : Except RStr (List Airport) :=
  match t.parseQuery .description text with
  | .error e => .error e
  | .ok q => materialize_query t q 25

/-- Score-keeping variant of the materialization, used to state the
descending-relevance ordering of the results. -/
def materializeScored (t : Tantivy S Q A D) (cands : List (S × A)) :
    List (S × Airport) :=
  cands.filterMap fun sa => (deserDoc t sa).map fun a => (sa.1, a)

end Database

/-! ## Identifier lookup in the command path (`src/main.rs`)

`main.rs` works over the ahead-of-time dataset of the companion `adb_data`
crate: a sorted static array of `AotAirport` searched with
`slice::binary_search_by`, after uppercasing the user token.  On a miss the
process exits printing `"{id} not found"` with the uppercased token; the
embedding returns that message as the error value. -/

/-- Modelled from the spec: the `AotAirport` record of the companion
`adb_data` crate, which is not under `src/`; its fields are the ones
`build.rs` generates and `main.rs` reads (the airports-table columns of §6,
coordinates included, without runways). -/
structure AotAirport where
  ident : RStr
  kind : RStr
  name : RStr
  elevation_ft : Option Int
  continent : RStr
  iso_country : RStr
  iso_region : RStr
  municipality : RStr
  gps_code : RStr
  iata_code : RStr
  local_code : RStr
  coordinates : Coords
  deriving DecidableEq, Repr

/-- `u8::to_ascii_uppercase` on one character: ASCII lowercase letters move
down by 32, everything else is unchanged. -/
def upperChar (c : Char) : Char :=
  if 97 ≤ c.toNat ∧ c.toNat ≤ 122 then Char.ofNat (c.toNat - 32) else c

/-- `str::to_ascii_uppercase` (`main.rs` line 155). -/
def toAsciiUpper (s : RStr) : RStr :=
  s.map upperChar

/-- `Ord::cmp` on characters (byte order and scalar-value order agree for
UTF-8 encoded strings). -/
def cmpChar (a b : Char) : Ordering :=
  if a < b then .lt else if a = b then .eq else .gt

/-- `str::cmp`: lexicographic comparison. -/
def cmpRStr : RStr → RStr → Ordering
  | [], [] => .eq
  | [], _ :: _ => .lt
  | _ :: _, [] => .gt
  | a :: as, b :: bs =>
    match cmpChar a b with
    | .eq => cmpRStr as bs
    | o => o

/-- The loop of `slice::binary_search_by`: while more than one candidate
remains, probe the middle and keep the half that can contain the key; then
test the single remaining candidate.  `fuel` is a structural bound on the
iteration count (each iteration shrinks `size` by at least one, so the
wrapper's `fuel = size` never runs out); an out-of-range probe cannot occur
for the wrapper's arguments. -/
def binarySearchGo {α : Type u} (xs : List α) (f : α → Ordering) :
    Nat → Nat → Nat → Except Nat Nat
  | 0, base, _ => .error base
  | fuel + 1, base, size =>
    if 1 < size then
      let half := size / 2
      let mid := base + half
      let cmp :=
        match xs.get? mid with
        | some x => f x
        | none => Ordering.eq
      binarySearchGo xs f fuel (if cmp = .gt then base else mid) (size - half)
    else
      match xs.get? base with
      | some x =>
        match f x with
        | .eq => .ok base
        | .lt => .error (base + 1)
        | .gt => .error base
      | none => .error base

/-- `slice::binary_search_by`: `Ok(position of a match)` or
`Err(insertion position)`. -/
def binarySearchBy {α : Type u} (xs : List α) (f : α → Ordering) :
    Except Nat Nat :=
  if xs.length = 0 then .error 0
  else binarySearchGo xs f xs.length 0 xs.length

/-- `find_by_identifier` (`src/main.rs`): uppercase the token, binary-search
the sorted dataset by identifier, and on a miss report
`"{id} not found"` (with the uppercased token) and exit — the exit is the
`Except.error` carrying the printed message. -/
def find_by_identifier (airports : List AotAirport) (identifier : RStr) :
    Except RStr AotAirport :=
  let id := toAsciiUpper identifier
  match binarySearchBy airports fun probe => cmpRStr probe.ident id with
  | .ok i =>
    match airports.get? i with
    | some a => .ok a
    | none => .error (id ++ " not found".data)
  | .error _ => .error (id ++ " not found".data)

/-- A small sorted ahead-of-time dataset for the witness: `KEB` then
`PANC`. -/
def sampleAirports : List AotAirport :=
  [{ ident := "KEB".data
     kind := "seaplane_base".data
     name := "Nanwalek Airport".data
     elevation_ft := some 27
     continent := "NA".data
     iso_country := "US".data
     iso_region := "US-AK".data
     municipality := "Nanwalek".data
     gps_code := []
     iata_code := "KEB".data
     local_code := []
     coordinates := { latitude := .finite 594 (-1), longitude := .finite (-1519) (-1) } },
   { ident := "PANC".data
     kind := "large_airport".data
     name := "Anchorage".data
     elevation_ft := some 152
     continent := "NA".data
     iso_country := "US".data
     iso_region := "US-AK".data
     municipality := "Anchorage".data
     gps_code := "PANC".data
     iata_code := "ANC".data
     local_code := []
     coordinates := { latitude := .finite 612 (-1), longitude := .finite (-1499) (-1) } }]

/-! ## Leg distances (`src/waypoint.rs`) and route aggregation

`Waypoint::distance_to` calls the external geoutils crate:
`Location::distance_to` (the iterative Vincenty method, which returns
`Result` and can fail to converge) and, on failure,
`Location::haversine_distance_to` (total).  The Vincenty method is the
oracle `GeoOracle.vincenty`; the haversine fallback is modelled from the
spec as the standard spherical haversine formula over the real numbers. -/

/-- The real number denoted by an `F64`; the non-finite values are idealized
to `0` (no claim evaluates a distance at a non-finite coordinate). -/
noncomputable def F64.toReal : F64 → ℝ
  | .finite m e => (m : ℝ) * (10 : ℝ) ^ (e : ℤ)
  | .posInf => 0
  | .negInf => 0
  | .nan => 0

/-- Degrees to radians. -/
noncomputable def radians (x : F64) : ℝ :=
  x.toReal * (Real.pi / 180)

/-- Modelled from the spec: the haversine of the central angle between two
points — the argument under the root of the spherical haversine formula
(geoutils' `haversine_distance_to` is external to the repository). -/
noncomputable def havArg (a b : Coords) : ℝ :=
  Real.sin ((radians b.latitude - radians a.latitude) / 2) ^ 2 +
    Real.cos (radians a.latitude) * Real.cos (radians b.latitude) *
      Real.sin ((radians b.longitude - radians a.longitude) / 2) ^ 2

/-- Modelled from the spec: the spherical haversine distance in meters
(mean earth radius 6 371 000 m). -/
noncomputable def haversineR (a b : Coords) : ℝ :=
  2 * 6371000 * Real.arcsin (Real.sqrt (havArg a b))

/-- Oracle for geoutils' `Location::distance_to` (iterative Vincenty
inverse), which may fail to converge. -/
structure GeoOracle where
  vincenty : Coords → Coords → Except RStr ℝ

/-- `Waypoint::distance_to` (`src/waypoint.rs`):
`left.distance_to(&right).unwrap_or_else(|_| left.haversine_distance_to(&right))`
— Vincenty first, silent haversine fallback, total result. -/
noncomputable def Waypoint.distance_to (g : GeoOracle) (self other : Waypoint) : ℝ :=
  match g.vincenty self.coordinates other.coordinates with
  | .ok d => d
  | .error _ => haversineR self.coordinates other.coordinates

/-- Modelled from the spec: aggregation of a route's leg distances over the
adjacent pairs produced by the Pairwise Sequencer (§4.4) — the waypoint-based
route computation has no caller under `src/`.  Uses the source-embedded
`pairs` iterator. -/
noncomputable def routeTotal (g : GeoOracle) (ws : List Waypoint) :
    Except Panicked ℝ :=
  (pairsRun ws).map fun legs =>
    legs.foldl (fun acc pq => acc + Waypoint.distance_to g pq.1 pq.2) 0

/-- A Vincenty oracle that always fails to converge. -/
def vincentyFails : GeoOracle :=
  { vincenty := fun _ _ => .error ("failed to converge".data) }

/-! # Part 2 — Theorems -/

theorem pairsAux_ok {α : Type u} (l : List α) :
    ∀ start, pairsAux l start (l.length - 1) =
      .ok ((l.drop start).zip (l.drop (start + 1))) := by
  intro start
  by_cases h : start < l.length - 1
  · rw [pairsAux]
    have hs : start < l.length := by omega
    have hs1 : start + 1 < l.length := by omega
    rw [dif_pos h, List.get?_eq_getElem?, List.get?_eq_getElem?,
      List.getElem?_eq_getElem hs, List.getElem?_eq_getElem hs1,
      pairsAux_ok l (start + 1)]
    simp only [Except.map]
    congr 1
    rw [List.drop_eq_getElem_cons hs, List.drop_eq_getElem_cons hs1,
      List.zip_cons_cons]
  · rw [pairsAux, dif_neg h]
    have : l.length ≤ start + 1 := by omega
    rw [List.drop_eq_nil_of_le this, List.zip_nil_right]
termination_by start => l.length - 1 - start

theorem pairsRun_nil {α : Type u} :
    pairsRun ([] : List α) = .error .indexOutOfBounds := by
  rw [pairsRun, pairsAux]
  have h0 : (0 : Nat) < ((List.length ([] : List α)) + (USIZE - 1)) % USIZE := by
    simp [USIZE]
  rw [dif_pos h0]
  rfl

theorem pairsRun_cons {α : Type u} (l : List α) (hne : l ≠ [])
    (hlen : l.length < USIZE) : pairsRun l = .ok (adjacentPairs l) := by
  have h1 : 1 ≤ l.length := by
    cases l with
    | nil => exact absurd rfl hne
    | cons a t => simp
  have hmod : (l.length + (USIZE - 1)) % USIZE = l.length - 1 := by
    have husize : 0 < USIZE := by norm_num [USIZE]
    have : l.length + (USIZE - 1) = (l.length - 1) + USIZE := by omega
    rw [this, Nat.add_mod_right]
    exact Nat.mod_eq_of_lt (by omega)
  rw [pairsRun, hmod, pairsAux_ok l 0]
  simp [adjacentPairs]

/-- C1.  For every sequence, `pairs` yields the `N−1` adjacent pairs in order
when `N ≥ 1`; but contrary to the claim, the empty sequence is an error: the
`usize` subtraction in `PairsIter::new` underflows and the iterator panics. -/
theorem pairs_adjacent_spec {α : Type u} (l : List α) (hlen : l.length < USIZE) :
    pairsRun l = if l.isEmpty then .error .indexOutOfBounds
                 else .ok (adjacentPairs l) := by
  cases l with
  | nil => simpa using pairsRun_nil
  | cons a t =>
    rw [List.isEmpty_cons]
    exact pairsRun_cons _ (by simp) hlen

/-- Witness for `pairs_adjacent_spec` at the concrete sequence `[10, 20, 30]`:
the result is exactly `[(10, 20), (20, 30)]`. -/
theorem pairs_adjacent_spec_witness :
    ([10, 20, 30] : List Nat).length < USIZE ∧
      pairsRun ([10, 20, 30] : List Nat) = .ok [(10, 20), (20, 30)] := by
  refine ⟨by norm_num [USIZE], ?_⟩
  rw [pairs_adjacent_spec ([10, 20, 30] : List Nat) (by norm_num [USIZE])]
  rfl

/-- The failing input of C1: iterating `pairs` over the empty sequence
panics instead of yielding zero pairs. -/
theorem pairs_empty_panics : pairsRun ([] : List Nat) = .error .indexOutOfBounds :=
  pairsRun_nil

/-- C3 (amended).  Coordinate parsing succeeds exactly when the input splits
into exactly two ASCII-whitespace-separated tokens, each a valid `f64`
literal.  Commas are not separators. -/
theorem coords_fromStr_ok_iff (s : RStr) :
    (Coords.fromStr s).isOk =
      ((splitAsciiWhitespace s).length == 2 &&
        (splitAsciiWhitespace s).all fun t => (parseF64 t).isSome) := by
  rw [Coords.fromStr]
  cases h : splitAsciiWhitespace s with
  | nil => rfl
  | cons t1 rest =>
    cases h1 : parseF64 t1 with
    | none => simp [Except.isOk, Except.toBool, h1]
    | some lat =>
      cases rest with
      | nil => simp [Except.isOk, Except.toBool, h1]
      | cons t2 rest2 =>
        cases h2 : parseF64 t2 with
        | none => simp [Except.isOk, Except.toBool, h1, h2]
        | some lon =>
          cases rest2 with
          | nil => simp [Except.isOk, Except.toBool, h1, h2]
          | cons t3 rest3 => simp [Except.isOk, Except.toBool, h1, h2]

/-- Counterexample to C3 as stated: the comma-separated pair
`"59.4,-151.9"` is rejected (the comma is not a separator, and the single
resulting token is not a valid float literal). -/
theorem coords_fromStr_comma_rejected :
    Coords.fromStr ("59.4,-151.9".data) = .error .floatError := by decide

theorem loadRunways_foldl (rows : List RunwayTemplate) (k : RStr) :
    ∀ m : RunwayMap,
      (rows.foldl (fun m t => insertRunway m (Runway.fromTemplate t)) m) k =
        if ((rows.map Runway.fromTemplate).filter fun r => r.airport = k).isEmpty
        then m k
        else some ((m k).getD [] ++
          ((rows.map Runway.fromTemplate).filter fun r => r.airport = k)) := by
  induction rows with
  | nil => intro m; simp
  | cons t rest ih =>
    intro m
    rw [List.foldl_cons, ih]
    by_cases hk : (Runway.fromTemplate t).airport = k
    · have hif : insertRunway m (Runway.fromTemplate t) k =
          some ((m k).getD [] ++ [Runway.fromTemplate t]) := by
        rw [insertRunway, if_pos hk.symm, hk]
      by_cases hrest : ((rest.map Runway.fromTemplate).filter fun r => r.airport = k).isEmpty
      · simp [hk, hif, List.isEmpty_iff.mp hrest]
      · simp [hk, hif, hrest]
    · have hif : insertRunway m (Runway.fromTemplate t) k = m k := by
        rw [insertRunway, if_neg (fun h => hk h.symm)]
      simp [hk, hif]

/-- `loadRunways` characterized: a key maps to exactly the converted rows
owned by it, in row order, or is absent when no row matches. -/
theorem loadRunways_spec (rows : List RunwayTemplate) (k : RStr) :
    loadRunways rows k =
      (if ((rows.map Runway.fromTemplate).filter fun r => r.airport = k).isEmpty
       then none
       else some ((rows.map Runway.fromTemplate).filter fun r => r.airport = k)) := by
  rw [loadRunways, loadRunways_foldl]
  by_cases h : ((rows.map Runway.fromTemplate).filter fun r => r.airport = k).isEmpty
  · simp [h]
  · simp [h]

theorem attachRunways_length (m : RunwayMap) (as : List Airport) :
    (attachRunways m as).length = as.length := by
  induction as generalizing m with
  | nil => rfl
  | cons a rest ih =>
    rw [attachRunways]
    cases m a.ident with
    | some rs => simpa using ih _
    | none => simpa using ih _

theorem attachRunways_ident (m : RunwayMap) (as : List Airport) (i : Nat) :
    ((attachRunways m as).getD i dfltAirport).ident = (as.getD i dfltAirport).ident := by
  induction as generalizing m i with
  | nil => rfl
  | cons a rest ih =>
    rw [attachRunways]
    cases m a.ident with
    | some rs =>
      cases i with
      | zero => rfl
      | succ j => simpa [List.getD] using ih _ j
    | none =>
      cases i with
      | zero => rfl
      | succ j => simpa [List.getD] using ih _ j

/-- If the map is (and stays) empty at an airport's identifier, that airport
keeps its own runway list unchanged. -/
theorem attachRunways_absent (as : List Airport) (i : Nat) :
    ∀ m : RunwayMap, m ((as.getD i dfltAirport).ident) = none →
      ((attachRunways m as).getD i dfltAirport).runways =
        (as.getD i dfltAirport).runways := by
  induction as generalizing i with
  | nil => intro m _; rfl
  | cons a rest ih =>
    intro m hm
    rw [attachRunways]
    cases i with
    | zero =>
      simp only [List.getD_cons_zero] at hm ⊢
      simp [hm]
    | succ j =>
      simp only [List.getD_cons_succ] at hm ⊢
      cases hma : m a.ident with
      | some rs =>
        simp only [List.getD_cons_succ]
        refine ih j _ ?_
        rw [removeKey]
        by_cases he : (rest.getD j dfltAirport).ident = a.ident
        · rw [if_pos he]
        · rw [if_neg he]; exact hm
      | none =>
        simp only [List.getD_cons_succ]
        exact ih j _ hm

/-- The fresh case: if no earlier airport shares the identifier, the airport
receives exactly the group currently held by the map for its identifier. -/
theorem attachRunways_fresh (as : List Airport) (i : Nat) :
    ∀ m : RunwayMap, i < as.length →
      (∀ j, j < i → (as.getD j dfltAirport).ident ≠ (as.getD i dfltAirport).ident) →
      ((attachRunways m as).getD i dfltAirport).runways =
        (m ((as.getD i dfltAirport).ident)).getD ((as.getD i dfltAirport).runways) := by
  induction as generalizing i with
  | nil => intro m h _; exact absurd h (by simp)
  | cons a rest ih =>
    intro m hi hfresh
    rw [attachRunways]
    cases i with
    | zero =>
      simp only [List.getD_cons_zero]
      cases hma : m a.ident with
      | some rs => simp [hma]
      | none => simp [hma]
    | succ j =>
      simp only [List.getD_cons_succ] at hfresh ⊢
      have hj : j < rest.length := by simpa using hi
      have hfresh' : ∀ k, k < j →
          (rest.getD k dfltAirport).ident ≠ (rest.getD j dfltAirport).ident := by
        intro k hk
        have := hfresh (k + 1) (by omega)
        simpa using this
      have hhead : a.ident ≠ (rest.getD j dfltAirport).ident := by
        have := hfresh 0 (by omega)
        simpa using this
      cases hma : m a.ident with
      | some rs =>
        simp only [List.getD_cons_succ]
        rw [ih j _ hj hfresh']
        have : removeKey m a.ident ((rest.getD j dfltAirport).ident) =
            m ((rest.getD j dfltAirport).ident) := by
          rw [removeKey, if_neg (fun h => hhead h.symm)]
        rw [this]
      | none =>
        simp only [List.getD_cons_succ]
        exact ih j m hj hfresh'

/-- The duplicate case: once some earlier airport shares the identifier, the
map no longer holds the group when the later duplicate is constructed, so the
duplicate keeps its default runway list. -/
theorem attachRunways_dup (as : List Airport) (i : Nat) :
    ∀ m : RunwayMap, i < as.length →
      (∃ j, j < i ∧ (as.getD j dfltAirport).ident = (as.getD i dfltAirport).ident) →
      ((attachRunways m as).getD i dfltAirport).runways =
        (as.getD i dfltAirport).runways := by
  induction as generalizing i with
  | nil => intro m h _; exact absurd h (by simp)
  | cons a rest ih =>
    intro m hi hdup
    obtain ⟨j, hji, hjid⟩ := hdup
    cases i with
    | zero => omega
    | succ i' =>
      rw [attachRunways]
      cases j with
      | zero =>
        -- the head consumed (or never had) the group; afterwards the key is
        -- absent for good, so the duplicate at `i'` keeps its own list.
        simp only [List.getD_cons_zero, List.getD_cons_succ] at hjid ⊢
        cases hma : m a.ident with
        | some rs =>
          simp only [List.getD_cons_succ]
          refine attachRunways_absent rest i' _ ?_
          rw [removeKey, hjid, if_pos rfl]
        | none =>
          simp only [List.getD_cons_succ]
          refine attachRunways_absent rest i' _ ?_
          rw [hjid] at hma
          exact hma
      | succ j' =>
        simp only [List.getD_cons_succ] at hjid ⊢
        have hj' : j' < i' := by omega
        have hi' : i' < rest.length := by simpa using hi
        cases hma : m a.ident with
        | some rs =>
          simp only [List.getD_cons_succ]
          exact ih i' _ hi' ⟨j', hj', hjid⟩
        | none =>
          simp only [List.getD_cons_succ]
          exact ih i' _ hi' ⟨j', hj', hjid⟩

/-- C6.  Runway association: with the groups built by `load_runways` and
consumed by `write_index`'s loop, an airport whose identifier is fresh (no
earlier airport shares it) ends up with exactly the runway rows owned by its
identifier, in row order; a later airport with a duplicate identifier ends
up with no runways (its group was already consumed); and every attached
runway names exactly its airport's identifier. -/
theorem runway_association (rows : List RunwayTemplate) (as : List Airport)
    (i : Nat) (hi : i < as.length)
    (hclean : ∀ a ∈ as, a.runways = []) :
    ((∀ j, j < i → (as.getD j dfltAirport).ident ≠ (as.getD i dfltAirport).ident) →
      ((attachRunways (loadRunways rows) as).getD i dfltAirport).runways =
        ((rows.map Runway.fromTemplate).filter
          fun r => r.airport = (as.getD i dfltAirport).ident)) ∧
    ((∃ j, j < i ∧ (as.getD j dfltAirport).ident = (as.getD i dfltAirport).ident) →
      ((attachRunways (loadRunways rows) as).getD i dfltAirport).runways = []) ∧
    (∀ r ∈ ((attachRunways (loadRunways rows) as).getD i dfltAirport).runways,
      r.airport = (as.getD i dfltAirport).ident) := by
  have hclean_i : (as.getD i dfltAirport).runways = [] := by
    have hmem : as.getD i dfltAirport ∈ as := by
      rw [List.getD_eq_getElem _ _ hi]
      exact List.getElem_mem hi
    exact hclean _ hmem
  have hfreshcase : (∀ j, j < i →
        (as.getD j dfltAirport).ident ≠ (as.getD i dfltAirport).ident) →
      ((attachRunways (loadRunways rows) as).getD i dfltAirport).runways =
        ((rows.map Runway.fromTemplate).filter
          fun r => r.airport = (as.getD i dfltAirport).ident) := by
    intro hfresh
    rw [attachRunways_fresh as i _ hi hfresh, loadRunways_spec]
    by_cases h : ((rows.map Runway.fromTemplate).filter
        fun r => r.airport = (as.getD i dfltAirport).ident).isEmpty
    · rw [if_pos h, Option.getD_none, hclean_i, List.isEmpty_iff.mp h]
    · rw [if_neg h, Option.getD_some]
  have hdupcase : (∃ j, j < i ∧
        (as.getD j dfltAirport).ident = (as.getD i dfltAirport).ident) →
      ((attachRunways (loadRunways rows) as).getD i dfltAirport).runways = [] := by
    intro hdup
    rw [attachRunways_dup as i _ hi hdup, hclean_i]
  refine ⟨hfreshcase, hdupcase, ?_⟩
  intro r hr
  by_cases hfresh : ∀ j, j < i →
      (as.getD j dfltAirport).ident ≠ (as.getD i dfltAirport).ident
  · rw [hfreshcase hfresh] at hr
    have := List.of_mem_filter hr
    simpa using this
  · push_neg at hfresh
    rw [hdupcase hfresh] at hr
    exact absurd hr (List.not_mem_nil r)

/-- Witness for `runway_association` on a concrete build: two runway rows for
`PAHO`, one for `KEB`; the airport list has `PAHO`, `KEB` and a duplicate
`PAHO`.  The first `PAHO` receives both its rows in order, `KEB` its row, and
the duplicate `PAHO` receives none. -/
theorem runway_association_witness :
    ((attachRunways
        (loadRunways
          [⟨"PAHO".data, some 2500, 1, 0, "9".data, "27".data⟩,
           ⟨"KEB".data, none, 0, 0, "18".data, "36".data⟩,
           ⟨"PAHO".data, some 1200, 0, 1, "E".data, "W".data⟩])
        [{ dfltAirport with ident := "PAHO".data },
         { dfltAirport with ident := "KEB".data },
         { dfltAirport with ident := "PAHO".data }]).getD 2 dfltAirport).runways
      = [] := by
  refine (runway_association
    [⟨"PAHO".data, some 2500, 1, 0, "9".data, "27".data⟩,
     ⟨"KEB".data, none, 0, 0, "18".data, "36".data⟩,
     ⟨"PAHO".data, some 1200, 0, 1, "E".data, "W".data⟩]
    [{ dfltAirport with ident := "PAHO".data },
     { dfltAirport with ident := "KEB".data },
     { dfltAirport with ident := "PAHO".data }]
    2 (by decide) (by decide)).2.1 ⟨0, by decide, by decide⟩

theorem resolveToken_ok (db : RStr → Option Airport) (t : RStr)
    (h : tokenResolves db t) : resolveToken db t = .ok (tokenWaypoint db t) := by
  rw [resolveToken, tokenWaypoint]
  cases hdb : db t with
  | some a => rfl
  | none =>
    cases hc : Coords.fromStr t with
    | ok c => rfl
    | error e =>
      rcases h with h | h
      · rw [hdb] at h; exact absurd h (by simp)
      · rw [hc] at h; exact absurd h (by simp [Except.isOk, Except.toBool])

theorem resolveToken_err (db : RStr → Option Airport) (t : RStr)
    (h : ¬tokenResolves db t) : resolveToken db t = .error (.UnknownIdentifier t) := by
  rw [tokenResolves] at h
  push_neg at h
  obtain ⟨h1, h2⟩ := h
  rw [resolveToken]
  cases hdb : db t with
  | some a => rw [hdb] at h1; simp at h1
  | none =>
    cases hc : Coords.fromStr t with
    | ok c => rw [hc] at h2; simp [Except.isOk, Except.toBool] at h2
    | error e => rfl

/-- C2.  Route resolution is per token, in order, identifier lookup first:
when every token resolves, the route is the token-wise list of waypoints
(airport-backed on a lookup hit, raw coordinates otherwise); and whenever
the tokens before `t` resolve but `t` does not (both the lookup and the
coordinate parse fail), the whole computation fails with
`Error::UnknownIdentifier` naming exactly `t`, producing no partial route. -/
theorem route_resolution_spec (db : RStr → Option Airport) (ts : List RStr) :
    ((∀ t ∈ ts, tokenResolves db t) →
      resolveRoute db ts = .ok (ts.map (tokenWaypoint db))) ∧
    (∀ pre t post, ts = pre ++ t :: post →
      (∀ u ∈ pre, tokenResolves db u) → ¬tokenResolves db t →
      resolveRoute db ts = .error (.UnknownIdentifier t)) := by
  constructor
  · intro hall
    induction ts with
    | nil => rfl
    | cons t rest ih =>
      rw [resolveRoute, resolveToken_ok db t (hall t (by simp)),
        ih fun u hu => hall u (by simp [hu])]
      rfl
  · intro pre t post hsplit hpre hbad
    subst hsplit
    induction pre with
    | nil =>
      rw [List.nil_append, resolveRoute, resolveToken_err db t hbad]
    | cons u pre' ih =>
      rw [List.cons_append, resolveRoute,
        resolveToken_ok db u (hpre u (by simp)),
        ih fun v hv => hpre v (by simp [hv])]
      rfl

/-- Witness for `route_resolution_spec` on a concrete database and token
list: with a database holding only `KEB`, the route `KEB, "61.2 -149.9",
ZZZZZ` fails with `UnknownIdentifier "ZZZZZ"` even though the first two
tokens resolve. -/
theorem route_resolution_spec_witness :
    resolveRoute
        (fun t => if t = "KEB".data then some { dfltAirport with ident := "KEB".data }
                  else none)
        ["KEB".data, "61.2 -149.9".data, "ZZZZZ".data] =
      .error (.UnknownIdentifier "ZZZZZ".data) := by
  refine (route_resolution_spec _ _).2
    ["KEB".data, "61.2 -149.9".data] "ZZZZZ".data [] (by decide) (by decide) (by decide)

section Database

variable {S Q A D : Type}

theorem materializeDocs_eq_filterMap (t : Tantivy S Q A D) (cands : List (S × A)) :
    materializeDocs t cands = cands.filterMap (deserDoc t) := by
  rw [materializeDocs, List.filterMap_filterMap]
  rfl

theorem materializeDocs_eq_scored (t : Tantivy S Q A D) (cands : List (S × A)) :
    materializeDocs t cands = (materializeScored t cands).map Prod.snd := by
  rw [materializeDocs_eq_filterMap, materializeScored, List.map_filterMap]
  congr 1
  funext sa
  cases deserDoc t sa <;> rfl

/-- C7.  `by_identifier` queries only the `identifier` field, searches with
limit 1, and yields the head of the materialized candidates; in particular,
an identifier absent from the dataset (no matching document) yields
`Ok(None)` — "not found" is an empty result, not an error. -/
theorem by_identifier_spec (t : Tantivy S Q A D) (id : RStr) (q : Q)
    (docs : List (S × A))
    (hp : t.parseQuery .identifier id = .ok q)
    (hs : t.searchTop q 1 = .ok docs) :
    by_identifier t id = .ok (materializeDocs t docs).head? ∧
    (docs = [] → by_identifier t id = .ok none) := by
  have hmain : by_identifier t id = .ok (materializeDocs t docs).head? := by
    rw [by_identifier, hp]
    show Except.map List.head? (materialize_query t q 1) = _
    unfold materialize_query
    rw [hs]
    rfl
  refine ⟨hmain, fun hnil => ?_⟩
  subst hnil
  rw [hmain]
  rfl

/-- Witness for `by_identifier_spec` with a concrete oracle whose searcher
finds no document for the token `ZZZZZ`: the result is `Ok(None)`. -/
theorem by_identifier_spec_witness :
    by_identifier
        { parseQuery := fun _ _ => .ok 0
          searchTop := fun _ _ => .ok []
          getDoc := fun a => some a
          payload := fun _ => some []
          deser := fun _ => none : Tantivy Nat Nat Nat Nat }
        ("ZZZZZ".data) = .ok none :=
  (by_identifier_spec _ ("ZZZZZ".data) 0 [] rfl rfl).2 rfl

/-- C8.  `search` queries only the `description` field and searches with
limit 25: given the top documents returned by the engine (at most 25 of
them, in descending score order), the result is their materialization —
at most 25 airports, ordered by descending relevance score. -/
theorem search_spec [LinearOrder S] (t : Tantivy S Q A D) (text : RStr) (q : Q)
    (scored : List (S × A))
    (hp : t.parseQuery .description text = .ok q)
    (hs : t.searchTop q 25 = .ok scored)
    (hlim : scored.length ≤ 25)
    (hsort : scored.Pairwise fun x y => x.1 ≥ y.1) :
    dbSearch t text = .ok ((materializeScored t scored).map Prod.snd) ∧
    ((materializeScored t scored).map Prod.snd).length ≤ 25 ∧
    (materializeScored t scored).Pairwise fun x y => x.1 ≥ y.1 := by
  refine ⟨?_, ?_, ?_⟩
  · rw [dbSearch, hp]
    show materialize_query t q 25 = _
    unfold materialize_query
    rw [hs]
    show Except.ok (materializeDocs t scored) = _
    rw [materializeDocs_eq_scored]
  · rw [List.length_map]
    calc (materializeScored t scored).length
        ≤ scored.length := List.length_filterMap_le _ _
      _ ≤ 25 := hlim
  · refine List.Pairwise.filterMap _ ?_ hsort
    intro a a' hr b hb b' hb'
    simp only [Option.mem_def, Option.map_eq_some'] at hb hb'
    obtain ⟨x, -, hx⟩ := hb
    obtain ⟨x', -, hx'⟩ := hb'
    rw [← hx, ← hx']
    exact hr

/-- Witness for `search_spec` with a concrete oracle: two candidate
documents with scores 3 and 2, both deserializing, give exactly the two
airports in descending-score order. -/
theorem search_spec_witness :
    dbSearch
        { parseQuery := fun _ _ => .ok 0
          searchTop := fun _ _ => .ok [(3, 1), (2, 2)]
          getDoc := fun a => some a
          payload := fun d => some [d]
          deser := fun bs => some { dfltAirport with elevation_ft := some (bs.length) }
          : Tantivy Nat Nat Nat Nat }
        ("homer".data) =
      .ok [{ dfltAirport with elevation_ft := some 1 },
           { dfltAirport with elevation_ft := some 1 }] := by
  have h := (search_spec
    { parseQuery := fun _ _ => .ok 0
      searchTop := fun _ _ => .ok [(3, 1), (2, 2)]
      getDoc := fun a => some a
      payload := fun d => some [d]
      deser := fun bs => some { dfltAirport with elevation_ft := some (bs.length) }
      : Tantivy Nat Nat Nat Nat }
    ("homer".data) 0 [(3, 1), (2, 2)] rfl rfl (by decide)
    (by decide)).1
  rw [h]
  rfl

/-- C9.  A matched document whose stored payload fails to deserialize is
silently dropped: materialization of candidates containing such a document
equals materialization with the document removed, and the enclosing query
still succeeds (an `Ok` result) with the remaining airports — no error is
surfaced for the dropped document. -/
theorem materialize_drops_undeserializable (t : Tantivy S Q A D)
    (xs ys : List (S × A)) (b : S × A) (d : D)
    (hgd : t.getDoc b.2 = some d)
    (hbad : (t.payload d).bind t.deser = none) :
    materializeDocs t (xs ++ b :: ys) = materializeDocs t (xs ++ ys) ∧
    (∀ q lim, t.searchTop q lim = .ok (xs ++ b :: ys) →
      materialize_query t q lim = .ok (materializeDocs t (xs ++ ys))) := by
  have hnone : deserDoc t b = none := by
    rw [deserDoc, hgd, Option.some_bind, hbad]
  have hdrop : materializeDocs t (xs ++ b :: ys) = materializeDocs t (xs ++ ys) := by
    rw [materializeDocs_eq_filterMap, materializeDocs_eq_filterMap,
      List.filterMap_append, List.filterMap_append, List.filterMap_cons, hnone]
  refine ⟨hdrop, fun q lim hs => ?_⟩
  unfold materialize_query
  rw [hs]
  show Except.ok (materializeDocs t (xs ++ b :: ys)) = _
  rw [hdrop]

/-- Witness for `materialize_drops_undeserializable` with a concrete oracle:
document 2's payload does not deserialize and is dropped; the query returns
`Ok` with just the airport of document 1. -/
theorem materialize_drops_undeserializable_witness :
    materialize_query
        { parseQuery := fun _ _ => .ok 0
          searchTop := fun _ _ => .ok [(3, 1), (2, 2)]
          getDoc := fun a => some a
          payload := fun d => some [d]
          deser := fun bs => if bs = [2] then none else some dfltAirport
          : Tantivy Nat Nat Nat Nat }
        0 25 = .ok [dfltAirport] := by
  have h := (materialize_drops_undeserializable
    { parseQuery := fun _ _ => .ok 0
      searchTop := fun _ _ => .ok [(3, 1), (2, 2)]
      getDoc := fun a => some a
      payload := fun d => some [d]
      deser := fun bs => if bs = [2] then none else some dfltAirport
      : Tantivy Nat Nat Nat Nat }
    [(3, 1)] [] (2, 2) 2 rfl (by decide)).2 0 25 rfl
  rw [h]
  rfl

end Database

theorem upperChar_idem (c : Char) : upperChar (upperChar c) = upperChar c := by
  unfold upperChar
  by_cases h : 97 ≤ c.toNat ∧ c.toNat ≤ 122
  · rw [if_pos h]
    have hval : (c.toNat - 32).isValidChar := by
      left
      omega
    have ht : (Char.ofNat (c.toNat - 32)).toNat = c.toNat - 32 := by
      unfold Char.ofNat
      rw [dif_pos hval]
      rfl
    rw [if_neg]
    rw [ht]
    omega
  · rw [if_neg h, if_neg h]

theorem toAsciiUpper_idem (s : RStr) :
    toAsciiUpper (toAsciiUpper s) = toAsciiUpper s := by
  rw [toAsciiUpper, toAsciiUpper, List.map_map]
  exact List.map_congr_left fun c _ => upperChar_idem c

/-- C10.  The command-path identifier lookup is case-insensitive in the user
token: it depends on the token only through its ASCII uppercasing, so
looking up `t` and looking up `uppercase(t)` give the same result; and when
the lookup fails, the reported message names the uppercased token. -/
theorem find_by_identifier_uppercases (airports : List AotAirport) (t : RStr) :
    find_by_identifier airports t = find_by_identifier airports (toAsciiUpper t) ∧
    (∀ msg, find_by_identifier airports t = .error msg →
      msg = toAsciiUpper t ++ " not found".data) := by
  constructor
  · rw [find_by_identifier, find_by_identifier, toAsciiUpper_idem]
  · intro msg h
    rw [find_by_identifier] at h
    split at h
    · split at h
      · simp at h
      · cases h
        rfl
    · cases h
      rfl

/-- Witness for `find_by_identifier_uppercases`: on the sample dataset the
lowercase token `keb` resolves exactly as `KEB` does, and the failing token
`zZzZ` is reported in its uppercased form. -/
theorem find_by_identifier_uppercases_witness :
    find_by_identifier sampleAirports ("keb".data) =
      find_by_identifier sampleAirports ("KEB".data) ∧
    ("ZZZZ not found".data : RStr) = toAsciiUpper ("zZzZ".data) ++ " not found".data :=
  ⟨(find_by_identifier_uppercases sampleAirports ("keb".data)).1,
   (find_by_identifier_uppercases sampleAirports ("zZzZ".data)).2
     ("ZZZZ not found".data) (by decide)⟩

theorem havArg_self (c : Coords) : havArg c c = 0 := by
  rw [havArg]
  simp

theorem haversineR_self (c : Coords) : haversineR c c = 0 := by
  rw [haversineR, havArg_self]
  simp

theorem sin_half_sub_sq_comm (x y : ℝ) :
    Real.sin ((x - y) / 2) ^ 2 = Real.sin ((y - x) / 2) ^ 2 := by
  rw [show (x - y) / 2 = -((y - x) / 2) by ring, Real.sin_neg, neg_sq]

theorem havArg_comm (a b : Coords) : havArg a b = havArg b a := by
  rw [havArg, havArg,
    sin_half_sub_sq_comm (radians b.latitude) (radians a.latitude),
    sin_half_sub_sq_comm (radians b.longitude) (radians a.longitude),
    mul_comm (Real.cos (radians a.latitude)) (Real.cos (radians b.latitude))]

theorem haversineR_comm (a b : Coords) : haversineR a b = haversineR b a := by
  rw [haversineR, haversineR, havArg_comm]

/-- C4.  `Waypoint::distance_to` applies the Vincenty method first and, when
it fails to yield a result, silently falls back to the spherical haversine
distance; the operation is total (it always produces a distance), so the
route aggregation over adjacent pairs always yields a total for a non-empty
route, whatever legs the Vincenty method fails on. -/
theorem distance_to_fallback (g : GeoOracle) (p q : Waypoint) :
    (∀ d, g.vincenty p.coordinates q.coordinates = .ok d →
      Waypoint.distance_to g p q = d) ∧
    (∀ e, g.vincenty p.coordinates q.coordinates = .error e →
      Waypoint.distance_to g p q = haversineR p.coordinates q.coordinates) ∧
    (∀ ws : List Waypoint, ws ≠ [] → ws.length < USIZE →
      ∃ r, routeTotal g ws = .ok r) := by
  refine ⟨fun d hd => ?_, fun e he => ?_, fun ws hne hlen => ?_⟩
  · rw [Waypoint.distance_to, hd]
  · rw [Waypoint.distance_to, he]
  · refine ⟨(adjacentPairs ws).foldl
      (fun acc pq => acc + Waypoint.distance_to g pq.1 pq.2) 0, ?_⟩
    rw [routeTotal, pairsRun_cons ws hne hlen]
    rfl

/-- Witness for `distance_to_fallback`: with an oracle that never converges,
the distance between two concrete waypoints is silently the haversine
distance, and the three-waypoint route still aggregates to a total. -/
theorem distance_to_fallback_witness :
    Waypoint.distance_to vincentyFails
        (.coords { latitude := .finite 594 (-1), longitude := .finite (-1519) (-1) })
        (.coords { latitude := .finite 612 (-1), longitude := .finite (-1499) (-1) }) =
      haversineR
        (Waypoint.coords
          { latitude := .finite 594 (-1), longitude := .finite (-1519) (-1) }).coordinates
        (Waypoint.coords
          { latitude := .finite 612 (-1), longitude := .finite (-1499) (-1) }).coordinates ∧
    ∃ r, routeTotal vincentyFails
        [.coords { latitude := .finite 0 0, longitude := .finite 0 0 },
         .coords { latitude := .finite 1 0, longitude := .finite 1 0 },
         .coords { latitude := .finite 2 0, longitude := .finite 2 0 }] = .ok r :=
  ⟨(distance_to_fallback vincentyFails _ _).2.1 ("failed to converge".data) rfl,
   (distance_to_fallback vincentyFails
      (.coords { latitude := .finite 0 0, longitude := .finite 0 0 })
      (.coords { latitude := .finite 0 0, longitude := .finite 0 0 })).2.2
     _ (by simp) (by norm_num [USIZE])⟩

/-- C5.  Provided the external Vincenty method is itself symmetric and zero
on coincident points wherever it converges (the defining properties of a
geodesic distance, §Glossary), the code's distance function satisfies
`distance(P, P) = 0` and `distance(P, Q) = distance(Q, P)`; and a 3-point
route aggregates to exactly `leg(P, Q) + leg(Q, R)` — only the two adjacent
legs, never a direct `P`-to-`R` distance. -/
theorem distance_metric_props (g : GeoOracle)
    (hzero : ∀ c d, g.vincenty c c = .ok d → d = 0)
    (hsym : ∀ a b, g.vincenty a b = g.vincenty b a) :
    (∀ P : Waypoint, Waypoint.distance_to g P P = 0) ∧
    (∀ P Q : Waypoint, Waypoint.distance_to g P Q = Waypoint.distance_to g Q P) ∧
    (∀ P Q R : Waypoint, routeTotal g [P, Q, R] =
      .ok (Waypoint.distance_to g P Q + Waypoint.distance_to g Q R)) := by
  refine ⟨fun P => ?_, fun P Q => ?_, fun P Q R => ?_⟩
  · rw [Waypoint.distance_to]
    rcases hv : g.vincenty P.coordinates P.coordinates with e | d
    · exact haversineR_self _
    · exact hzero _ _ hv
  · rw [Waypoint.distance_to, Waypoint.distance_to,
      hsym P.coordinates Q.coordinates]
    rcases g.vincenty Q.coordinates P.coordinates with e | d
    · exact haversineR_comm _ _
    · rfl
  · rw [routeTotal, pairsRun_cons [P, Q, R] (by simp) (by norm_num [USIZE])]
    show Except.ok _ = _
    show Except.ok (0 + Waypoint.distance_to g P Q + Waypoint.distance_to g Q R) = _
    rw [zero_add]

/-- Witness for `distance_metric_props`: the never-converging oracle
vacuously satisfies both hypotheses, and the properties hold at concrete
waypoints. -/
theorem distance_metric_props_witness :
    Waypoint.distance_to vincentyFails
        (.coords { latitude := .finite 594 (-1), longitude := .finite (-1519) (-1) })
        (.coords { latitude := .finite 594 (-1), longitude := .finite (-1519) (-1) }) = 0 :=
  (distance_metric_props vincentyFails
      (fun c d h => by simp [vincentyFails] at h)
      (fun a b => rfl)).1
    (.coords { latitude := .finite 594 (-1), longitude := .finite (-1519) (-1) })

end Adb
